import Mathlib

/-
Verification of the gigapi query engine core (QueryClient / QueryServer).

The JavaScript source is shallowly embedded:
  * nanosecond / millisecond epoch values become `Int`;
  * JS `null`-able numbers become `Option Int`;
  * filesystem state becomes an explicit directory tree (`FSDir` / `FSList`)
    plus an existence oracle `String → Bool` for the absolute paths recorded
    inside manifests, which may point anywhere on the filesystem;
  * `new Date(...)` field extraction (getFullYear / getMonth / getDate /
    getHours) is abstracted as oracle functions producing a `DateTime`
    record, since its behaviour depends on the host clock and timezone;
  * JS regular-expression match results are passed as `Option`-typed inputs
    to the functions that consume them.
-/

set_option autoImplicit false

namespace Gigapi

/-! ## String helpers (List-Char based so that the kernel evaluates them) -/

/-- Does the first list lead the second one (element-wise from the head)? -/
def leadsList : List Char → List Char → Bool
  | [], _ => true
  | _ :: _, [] => false
  | a :: as, b :: bs => a == b && leadsList as bs

/-- Occurrence of `sub` anywhere inside `l`; models JS `String.includes`. -/
def hasSubList (sub : List Char) : List Char → Bool
  | [] => sub.isEmpty
  | c :: t => leadsList sub (c :: t) || hasSubList sub t

/-- Models JS `s.includes(sub)`. -/
def strIncludes (s sub : String) : Bool :=
  hasSubList sub.toList s.toList

/-- Models JS `s.startsWith(pre)`. -/
def strStarts (s pre : String) : Bool :=
  leadsList pre.toList s.toList

/-- Models JS `s.endsWith(suf)`. -/
def strEnds (s suf : String) : Bool :=
  leadsList suf.toList.reverse s.toList.reverse

/-- Models `s.replace(pre, "")` for a literal `pre`: JS `replace` with a plain
string pattern replaces only the first occurrence, and every name this is
applied to in the source has been filtered by `startsWith(pre)` first, so the
first occurrence is the leading one. -/
def dropHive (pre s : String) : String :=
  if strStarts s pre then String.mk (s.toList.drop pre.toList.length) else s

/-- Models `path.join(a, b)` for the simple relative segments the source joins
(no trailing slashes, no `..` segments appear in the embedded call sites). -/
def pathJoin (a b : String) : String :=
  a ++ "/" ++ b

/-- Models `path.basename(p)`: the part after the last slash (the call sites
never pass paths with trailing slashes). -/
def lastComponent (p : String) : String :=
  String.mk ((p.toList.reverse.takeWhile (fun c => c != '/')).reverse)

/-- Decimal value of a digit list. -/
def digitsVal (cs : List Char) : Nat :=
  cs.foldl (fun a c => a * 10 + (c.toNat - 48)) 0

/-- Models JS `parseInt(s)`: an optional sign followed by leading digits;
`none` models the `NaN` result (`NaN` makes every `<`, `<=`, `>=` comparison
in the source evaluate to false). -/
def jsParseInt (s : String) : Option Int :=
  let cs := s.toList
  let signAndRest : Bool × List Char :=
    match cs with
    | '-' :: t => (true, t)
    | '+' :: t => (false, t)
    | t => (false, t)
  let ds := signAndRest.2.takeWhile Char.isDigit
  if ds.isEmpty then none
  else some ((if signAndRest.1 then -1 else 1) * (digitsVal ds : Int))

/-! ## Data model: manifests (metadata.json documents) -/

/-- One entry of a manifest `files` array. -/
structure FileEntry where
  path : String
  min_time : Int
  max_time : Int
  deriving DecidableEq, Repr

/-- A partition manifest (`metadata.json`). -/
structure Metadata where
  min_time : Int
  max_time : Int
  files : List FileEntry
  deriving DecidableEq, Repr

/-! ## Partition-level and file-level pruning

From `_findFilesByHiveStructure` (src/unnamed/part_001 lines 962-989):

  if (startNs !== null && endNs !== null &&
      (metadata.max_time < startNs || metadata.min_time > endNs)) continue;
  ...
  if (startNs === null || endNs === null ||
      (file.max_time >= startNs && file.min_time <= endNs)) { ...push... }
-/

/-- The manifest-level prune guard. -/
def manifestSkip (sNs eNs : Option Int) (m : Metadata) : Bool :=
  match sNs, eNs with
  | some s, some e => decide (m.max_time < s) || decide (m.min_time > e)
  | _, _ => false

/-- The per-file time filter guard. -/
def fileTimeKeep (sNs eNs : Option Int) (f : FileEntry) : Bool :=
  match sNs, eNs with
  | some s, some e => decide (f.max_time ≥ s) && decide (f.min_time ≤ e)
  | _, _ => true

/-- The manifest entries that survive both prune levels: the body of the
per-hour loop of `_findFilesByHiveStructure`, before path-existence
resolution. -/
def manifestSelectedFiles (sNs eNs : Option Int) (m : Metadata) : List FileEntry :=
  if manifestSkip sNs eNs m then []
  else m.files.filter (fileTimeKeep sNs eNs)

/-- Path-existence resolution for one selected entry (lines 977-987): prefer
the recorded path; otherwise retry the base name inside the partition
directory; otherwise drop the entry. -/
def resolveEntry (ex : String → Bool) (dirPath : String) (f : FileEntry) : Option String :=
  if ex f.path then some f.path
  else
    let localPath := pathJoin dirPath (lastComponent f.path)
    if ex localPath then some localPath else none

/-- All file paths contributed by one hour-directory manifest. -/
def hourDirFiles (ex : String → Bool) (dirPath : String) (sNs eNs : Option Int)
    (m : Metadata) : List String :=
  (manifestSelectedFiles sNs eNs m).filterMap (resolveEntry ex dirPath)

/-! ## Filesystem model

A directory holds an optional manifest (presence of `metadata.json`), the
names of its plain files, and named subdirectories.  `FSList` is a mutual
inductive rather than `List (String × FSDir)` so that the walkers below are
structurally recursive and evaluate inside the kernel.  `readdir` order is
abstracted: the embedded walkers visit plain files first, then
subdirectories, which preserves exactly which paths are produced. -/

mutual
inductive FSDir : Type where
  | node (meta : Option Metadata) (plain : List String) (subs : FSList)

inductive FSList : Type where
  | nil
  | cons (name : String) (d : FSDir) (rest : FSList)
end

/-- The manifest of a directory. -/
def FSDir.meta : FSDir → Option Metadata
  | .node m _ _ => m

/-- Names of the subdirectories, in `readdir` order. -/
def namesOf : FSList → List String
  | .nil => []
  | .cons n _ rest => n :: namesOf rest

/-- Lookup of a subdirectory by name (first match, like `Array.find`). -/
def lookupSub : FSList → String → Option FSDir
  | .nil, _ => none
  | .cons n d rest, q => if n = q then some d else lookupSub rest q

/-- Subdirectory list of a directory. -/
def FSDir.subs : FSDir → FSList
  | .node _ _ s => s

/-! ## Fallback resolver: `_findMetadataFilesRecursively` (lines 1005-1069)

With a manifest: if both bounds are non-null and the manifest does not
overlap, the JS function `return`s — skipping the subdirectory recursion as
well.  Otherwise it pushes the overlap-surviving, existence-resolved manifest
entries.  Without a manifest it collects the `.parquet` files of the
directory.  In both non-skipped cases it then recurses into every
subdirectory.  Per-directory read errors (caught and logged in JS) do not
arise in the model. -/

mutual
def fmfr (ex : String → Bool) (sNs eNs : Option Int) (dirPath : String) :
    FSDir → List String
  | .node meta plain subs =>
    match meta with
    | some m =>
      if manifestSkip sNs eNs m then []
      else hourDirFiles ex dirPath sNs eNs m ++ fmfrSubs ex sNs eNs dirPath subs
    | none =>
      (plain.filter (fun n => strEnds n ".parquet")).map (pathJoin dirPath)
        ++ fmfrSubs ex sNs eNs dirPath subs

def fmfrSubs (ex : String → Bool) (sNs eNs : Option Int) (dirPath : String) :
    FSList → List String
  | .nil => []
  | .cons nm d rest =>
    fmfr ex sNs eNs (pathJoin dirPath nm) d ++ fmfrSubs ex sNs eNs dirPath rest
end

/-! ## All-files scan: `_findFilesRecursively` (lines 1102-1151)

No time filter.  Manifest entries are added only when the recorded path
exists (no base-name retry here), `.parquet` files of the directory are
always collected as well, and recursion always continues. -/

mutual
def ffr (ex : String → Bool) (dirPath : String) : FSDir → List String
  | .node meta plain subs =>
    (match meta with
     | some m => (m.files.filter (fun f => ex f.path)).map FileEntry.path
     | none => [])
    ++ (plain.filter (fun n => strEnds n ".parquet")).map (pathJoin dirPath)
    ++ ffrSubs ex dirPath subs

def ffrSubs (ex : String → Bool) (dirPath : String) : FSList → List String
  | .nil => []
  | .cons nm d rest =>
    ffr ex (pathJoin dirPath nm) d ++ ffrSubs ex dirPath rest
end

/-! ## Debug walker: `findFiles` in QueryServer.js (lines 180-217)

The only walker with a depth guard: it recurses into a subdirectory only
when `level < 10`.  Only the collected parquet paths are modelled (the
metadata summaries it also gathers play no role in any claim). -/

mutual
def findFilesSrv (dirPath : String) (level : Nat) : FSDir → List String
  | .node _ plain subs =>
    (plain.filter (fun n => strEnds n ".parquet")).map (pathJoin dirPath)
      ++ findFilesSrvSubs dirPath level subs

def findFilesSrvSubs (dirPath : String) (level : Nat) : FSList → List String
  | .nil => []
  | .cons nm d rest =>
    (if level < 10 then findFilesSrv (pathJoin dirPath nm) (level + 1) d else [])
      ++ findFilesSrvSubs dirPath level rest
end

/-! ## Calendar abstraction

`DateTime` records the four fields the source reads off a JS `Date`
(`getFullYear`, `getMonth`, `getDate`, `getHours`).  Building a `Date` from
a nanosecond value or from a directory-name string depends on the host
timezone, so both constructions are oracles supplied through `Env`. -/

structure DateTime where
  year : Int
  month : Int
  day : Int
  hour : Int
  deriving DecidableEq, Repr

/-- Same calendar day: the `getFullYear`/`getMonth`/`getDate` triple test the
source repeats in `_getHourDirectoriesInRange`. -/
def sameDate (a b : DateTime) : Bool :=
  decide (a.year = b.year) && decide (a.month = b.month) && decide (a.day = b.day)

/-- Date-only comparison `new Date(y, m, d) <= new Date(y2, m2, d2)` used by
`_getDateDirectoriesInRange`: for field values in their calendar ranges the
millisecond comparison of the two `Date`s is the lexicographic order on the
triples. -/
def dateOnlyLe (a b : DateTime) : Bool :=
  decide (a.year < b.year) ||
    (decide (a.year = b.year) &&
      (decide (a.month < b.month) ||
        (decide (a.month = b.month) && decide (a.day ≤ b.day))))

/-- The environment of one resolution request: the measurement directory
(`none` when `basePath` does not exist), its path, the existence oracle for
manifest-recorded paths, and the two `Date` oracles. -/
structure Env where
  root : Option FSDir
  basePath : String
  fsExists : String → Bool
  parseDateStr : String → DateTime
  dateOfNs : Int → DateTime

/-! ## `_getDateDirectoriesInRange` (lines 1157-1177) -/

def getDateDirectoriesInRange (pd : String → DateTime) (root : Option FSDir)
    (startDate endDate : DateTime) : List String :=
  match root with
  | none => []
  | some r =>
    ((namesOf r.subs).filter (fun dir => strStarts dir "date=")).filter
      (fun dateDir =>
        let dirDate := pd (dropHive "date=" dateDir)
        dateOnlyLe startDate dirDate && dateOnlyLe dirDate endDate)

/-! ## `_getHourDirectoriesInRange` (lines 1183-1231)

`parseInt` on an undecipherable hour name yields `NaN`; every comparison
against `NaN` is false, modelled by the `none` branches. -/

def hourKeepVal (p : Int → Bool) (h : String) : Bool :=
  match jsParseInt (dropHive "hour=" h) with
  | some v => p v
  | none => false

def getHourDirectoriesInRange (pd : String → DateTime) (datePath : String)
    (dnode : FSDir) (startDate endDate : DateTime) : List String :=
  let hourDirs := (namesOf dnode.subs).filter (fun dir => strStarts dir "hour=")
  let dirDate := pd (dropHive "date=" (lastComponent datePath))
  if sameDate startDate dirDate && sameDate endDate dirDate then
    hourDirs.filter (hourKeepVal (fun v =>
      decide (startDate.hour ≤ v) && decide (v ≤ endDate.hour)))
  else if sameDate startDate dirDate then
    hourDirs.filter (hourKeepVal (fun v => decide (startDate.hour ≤ v)))
  else if sameDate endDate dirDate then
    hourDirs.filter (hourKeepVal (fun v => decide (v ≤ endDate.hour)))
  else
    hourDirs

/-! ## `_findFilesByHiveStructure` (lines 948-999) -/

def findFilesByHiveStructure (env : Env) (startDate endDate : DateTime)
    (sNs eNs : Option Int) : List String :=
  (getDateDirectoriesInRange env.parseDateStr env.root startDate endDate).foldl
    (fun acc dateDir =>
      match env.root with
      | none => acc
      | some r =>
        match lookupSub r.subs dateDir with
        | none => acc
        | some dnode =>
          let datePath := pathJoin env.basePath dateDir
          (getHourDirectoriesInRange env.parseDateStr datePath dnode startDate
              endDate).foldl
            (fun acc2 hourDir =>
              match lookupSub dnode.subs hourDir with
              | none => acc2
              | some hnode =>
                match hnode.meta with
                | none => acc2
                | some m =>
                  acc2 ++ hourDirFiles env.fsExists (pathJoin datePath hourDir)
                    sNs eNs m)
            acc)
    []

/-! ## `_findAllFiles` (lines 1075-1096) -/

def findAllFiles (env : Env) : List String :=
  match env.root with
  | none => []
  | some r => ffr env.fsExists env.basePath r

/-! ## The time-range record and `findRelevantFiles` (lines 906-942) -/

/-- Structured rendering of the SQL text the source stores in
`timeCondition` (the exact string carries quote characters but no claim
inspects it, so only its shape is kept). -/
inductive TimeCond : Type where
  | between (a b : String)
  | cmp (op lit : String)
  | conj (c1 c2 : TimeCond)
  | equal (lit : String)
  deriving DecidableEq, Repr

/-- The `timeRange` object `{start, end, timeCondition}`; `end` is a Lean
keyword, hence the field name `endTime`. -/
structure TimeRange where
  start : Option Int
  endTime : Option Int
  timeCondition : Option TimeCond
  deriving DecidableEq, Repr

def findRelevantFiles (env : Env) (tr : TimeRange) : List String :=
  match tr.start, tr.endTime with
  | none, none => findAllFiles env
  | s, e =>
    -- JS: new Date(start / 1000000); a null bound coerces to 0 here.
    let startDate := env.dateOfNs (s.getD 0)
    let endDate := env.dateOfNs (e.getD 0)
    let hive := findFilesByHiveStructure env startDate endDate s e
    if hive.length = 0 then
      match env.root with
      | none => []  -- readdir throws on a missing basePath; caught, list stays empty
      | some r => fmfr env.fsExists s e env.basePath r
    else hive

/-! ## Time-predicate extractor: `_extractTimeRange` (lines 793-870)

The four regular-expression probes of the source are supplied as match
results: `between` for `time BETWEEN a AND b`, `startM` for `time >=|> lit`
(operator capture and literal capture), `endM` for `time <=|< lit`, and
`equalM` for `time = lit`.  `parseDate` models `new Date(lit).getTime()`
in milliseconds (an unparsable literal yields `NaN`, which the model does
not represent; no claim depends on it).  `nowMs` models `Date.now()`. -/

structure TRMatches where
  between : Option (String × String)
  startM : Option (String × String)
  endM : Option (String × String)
  equalM : Option String

/-- JS truthiness of a nullable number: `null` and `0` are falsy. -/
def jsTruthy : Option Int → Bool
  | none => false
  | some v => decide (v ≠ 0)

def extractTimeRange (parseDate : String → Int) (nowMs : Int) (m : TRMatches) :
    TimeRange :=
  let phase1 : Option Int × Option Int × Option TimeCond × Bool :=
    match m.between with
    | some (a, b) =>
      (some (parseDate a * 1000000), some (parseDate b * 1000000),
        some (.between a b), true)
    | none =>
      let startPart : Option Int × Option TimeCond × Bool :=
        match m.startM with
        | some (op, lit) =>
          (some (parseDate lit * 1000000), some (.cmp op lit), true)
        | none => (none, none, false)
      let endPart : Option Int × Option TimeCond × Bool :=
        match m.endM with
        | some (op, lit) =>
          (some (parseDate lit * 1000000),
            some (match startPart.2.1 with
                  | some t => .conj t (.cmp op lit)
                  | none => .cmp op lit),
            true)
        | none => (none, startPart.2.1, startPart.2.2)
      match m.equalM with
      | some lit =>
        let x := parseDate lit * 1000000
        (some x, some x, some (.equal lit), true)
      | none => (startPart.1, endPart.1, endPart.2.1, endPart.2.2)
  let startV := phase1.1
  let endV := phase1.2.1
  let tc := phase1.2.2.1
  let userSpecified := phase1.2.2.2
  if !userSpecified then ⟨none, none, none⟩
  -- JS `start && !end`: truthiness, not a null test — a zero bound is falsy.
  else if jsTruthy startV && !jsTruthy endV then ⟨startV, some (nowMs * 1000000), tc⟩
  -- JS `!start && end`
  else if !jsTruthy startV && jsTruthy endV then ⟨some 0, endV, tc⟩
  else ⟨startV, endV, tc⟩

/-! ## The later-defined `parseQuery` (lines 715-787)

This second definition of the method (the one that wins in the concatenated
source) never calls `_extractTimeRange`: it hard-codes a fully null
`timeRange`.  The regex probes and the WHERE-clause truncation of lines
722-751 are supplied as already-extracted inputs. -/

structure ParseMatches where
  selectMatch : Option String
  fromMatch : Option (Option String × String)
  whereConditions : String
  orderBy : String
  groupBy : String
  having : String
  limit : Option Int

structure ParsedQuery where
  columns : String
  dbName : String
  measurement : String
  timeRange : TimeRange
  whereConditions : String
  orderBy : String
  groupBy : String
  having : String
  limit : Option Int

def parseQuery2 (pm : ParseMatches) (dbName : String) : Option ParsedQuery :=
  let columns := match pm.selectMatch with | some s => s.trim | none => "*"
  match pm.fromMatch with
  | none => none  -- the source throws: Invalid query: FROM clause not found
  | some (dbOpt, meas) =>
    some { columns := columns, dbName := dbOpt.getD dbName, measurement := meas,
           timeRange := ⟨none, none, none⟩,
           whereConditions := pm.whereConditions, orderBy := pm.orderBy,
           groupBy := pm.groupBy, having := pm.having, limit := pm.limit }

/-! ## Engine rows and the `/query` normalization (QueryServer.js lines 92-120) -/

inductive JSValue : Type where
  | vNull
  | vBool (b : Bool)
  | vNum (n : Int)
  | vBigInt (n : Int)
  | vStr (s : String)
  | vArr (elems : List JSValue)
  | vObj (fields : List (String × JSValue))

/-- `'k' in value` / `Object.keys(value).includes(k)`. -/
def hasKey (fields : List (String × JSValue)) (k : String) : Bool :=
  fields.any (fun kv => kv.1 == k)

def lookupField (fields : List (String × JSValue)) (k : String) : Option JSValue :=
  (fields.find? (fun kv => kv.1 == k)).map Prod.snd

/-- JS string coercion as used by `str += value[i]`; in the source this is
only ever reached on the single-character strings of an engine character
buffer. -/
def jsStringCoerce : JSValue → String
  | .vStr s => s
  | .vNum n => toString n
  | .vBigInt n => toString n
  | .vBool b => if b then "true" else "false"
  | .vNull => "null"
  | .vArr _ => ""
  | .vObj _ => "[object Object]"

/-- The `while (value[i.toString()] !== undefined)` loop.  A fuel of
`fields.length + 1` suffices: an object cannot answer more distinct numeric
keys than it has fields, so the JS loop stops within that many steps. -/
def collectCharsAux (fields : List (String × JSValue)) :
    Nat → Nat → String → String
  | 0, _, acc => acc
  | fuel + 1, i, acc =>
    match lookupField fields (toString i) with
    | some v => collectCharsAux fields fuel (i + 1) (acc ++ jsStringCoerce v)
    | none => acc

def collectChars (fields : List (String × JSValue)) : String :=
  collectCharsAux fields (fields.length + 1) 0 ""

/-- One entry of the `/query` per-row fixup.  The source tests, in order:
a null value under a count-named key, a BigInt value, and a non-array
object carrying a numeric key `"0"` (converted only when it also has a
`ptr` marker); everything else passes through. -/
def fixEntry (k : String) : JSValue → JSValue
  | .vNull => if strIncludes k "count" then .vNum 0 else .vNull
  | .vBigInt n => .vStr (toString n)
  | .vObj fields =>
    if hasKey fields "0" then
      if hasKey fields "ptr" then .vStr (collectChars fields) else .vObj fields
    else .vObj fields
  | v => v

abbrev Row : Type := List (String × JSValue)

def processQueryRow (row : Row) : Row :=
  row.map (fun kv => (kv.1, fixEntry kv.1 kv.2))

/-- An entry the fixup leaves alone: not a BigInt, not a null under a
count-named key, not a `ptr`-marked character buffer. -/
def entryNormalized (k : String) : JSValue → Bool
  | .vBigInt _ => false
  | .vNull => !strIncludes k "count"
  | .vObj fields => !(hasKey fields "0" && hasKey fields "ptr")
  | _ => true

/-! ## `query` (lines 1239-1332)

The DuckDB rewriting of lines 1263-1313 (FROM-span substitution plus
timestamp re-quoting) is abstracted as the `rewrite` argument and the engine
connection as `engine`; the claims settled here quantify over both. -/

def queryRun (env : Env) (pm : ParseMatches) (dbName : String)
    (rewrite : ParsedQuery → List String → String)
    (engine : String → Except String (List Row)) : Except String (List Row) :=
  match parseQuery2 pm dbName with
  | none => .error "Invalid query: FROM clause not found or invalid"
  | some parsed =>
    let files := findRelevantFiles env parsed.timeRange
    if files.length = 0 then .ok []
    else
      match engine (rewrite parsed files) with
      | .ok r => .ok r
      | .error msg => .error ("DuckDB query execution failed: " ++ msg)

/-! ## Concrete instances used by witnesses and counterexamples -/

/-- Manifest file lying entirely before the query interval `[50, 60]`. -/
def c2File : FileEntry := ⟨"a.parquet", 0, 10⟩

/-- Manifest whose own interval `[0, 100]` overlaps `[50, 60]`. -/
def c2Manifest : Metadata := ⟨0, 100, [c2File]⟩

/-- An environment whose measurement directory does not exist. -/
def envEmpty : Env where
  root := none
  basePath := "data/mydb/weather"
  fsExists := fun _ => false
  parseDateStr := fun _ => ⟨1970, 0, 1, 0⟩
  dateOfNs := fun _ => ⟨1970, 0, 1, 0⟩

/-- A date directory holding two hour directories. -/
def c6Node : FSDir :=
  .node none []
    (.cons "hour=3" (.node none [] .nil)
      (.cons "hour=15" (.node none [] .nil) .nil))

/-- A chain of `n` nested directories ending in one holding a parquet file. -/
def deepDir : Nat → FSDir
  | 0 => .node none ["x.parquet"] .nil
  | n + 1 => .node none [] (.cons "d" (deepDir n) .nil)

/-- The path of the parquet file at the bottom of `deepDir n`. -/
def deepPath (p : String) : Nat → String
  | 0 => pathJoin p "x.parquet"
  | n + 1 => deepPath (pathJoin p "d") n

/-- Parse-result inputs of a plain `SELECT * FROM weather` request. -/
def pmWeather : ParseMatches where
  selectMatch := none
  fromMatch := some (none, "weather")
  whereConditions := ""
  orderBy := ""
  groupBy := ""
  having := ""
  limit := none

/-- The descriptor `parseQuery2 pmWeather "mydb"` produces. -/
def parsedWeather : ParsedQuery where
  columns := "*"
  dbName := "mydb"
  measurement := "weather"
  timeRange := ⟨none, none, none⟩
  whereConditions := ""
  orderBy := ""
  groupBy := ""
  having := ""
  limit := none

/-- A row with no BigInt, no null count column and no character buffer. -/
def rowNormal : Row :=
  [("temp", .vNum 21), ("city", .vStr "NY"), ("tags", .vArr [.vNum 1])]

/-! ## Shared lemmas -/

theorem mem_manifestSelectedFiles (sNs eNs : Option Int) (m : Metadata)
    (f : FileEntry) :
    f ∈ manifestSelectedFiles sNs eNs m ↔
      manifestSkip sNs eNs m = false ∧ f ∈ m.files
        ∧ fileTimeKeep sNs eNs f = true := by
  unfold manifestSelectedFiles
  cases h : manifestSkip sNs eNs m <;> simp [h, List.mem_filter, and_comm]

theorem hourKeepVal_eq_true (p : Int → Bool) (h : String) :
    hourKeepVal p h = true ↔
      ∃ v, jsParseInt (dropHive "hour=" h) = some v ∧ p v = true := by
  unfold hourKeepVal
  cases jsParseInt (dropHive "hour=" h) <;> simp

/-! ## Claims -/

/-- C1: for a query interval with non-null start and end, the hour-partition
manifest is skipped exactly when `manifest.max_time < start` or
`manifest.min_time > end`, and otherwise a listed file is selected exactly
when `file.max_time ≥ start` and `file.min_time ≤ end` (the interval-null
disjuncts of the source guard are vacuous here). -/
theorem c1_hive_partition_pruning (s e : Int) (m : Metadata) (f : FileEntry) :
    (manifestSkip (some s) (some e) m = true ↔ m.max_time < s ∨ m.min_time > e)
    ∧ (f ∈ manifestSelectedFiles (some s) (some e) m ↔
        ¬(m.max_time < s ∨ m.min_time > e) ∧ f ∈ m.files
          ∧ f.max_time ≥ s ∧ f.min_time ≤ e) := by
  constructor
  · simp [manifestSkip]
  · rw [mem_manifestSelectedFiles]
    simp [manifestSkip, fileTimeKeep, not_or, and_assoc]

/-- C2 counterexample: the manifest `[0, 100]` overlaps the query interval
`[50, 60]` (it is not skipped), yet its listed file with declared interval
`[0, 10]` — strictly before the query interval — is not selected. -/
theorem c2_counterexample :
    manifestSkip (some 50) (some 60) c2Manifest = false
    ∧ c2File ∈ c2Manifest.files
    ∧ c2File.max_time < 50
    ∧ c2File ∉ manifestSelectedFiles (some 50) (some 60) c2Manifest := by
  refine ⟨rfl, ?_, ?_, ?_⟩ <;> decide

/-- C2 amended: when the manifest overlaps the query interval, a listed file
is included exactly when it passes the per-file overlap test
`file.max_time ≥ start ∧ file.min_time ≤ end`; a file whose declared
interval lies strictly outside the query interval is excluded even though
its manifest overlaps. -/
theorem c2_file_level_filter (s e : Int) (m : Metadata) (f : FileEntry)
    (hov : ¬(m.max_time < s ∨ m.min_time > e)) :
    f ∈ manifestSelectedFiles (some s) (some e) m ↔
      f ∈ m.files ∧ f.max_time ≥ s ∧ f.min_time ≤ e := by
  rw [mem_manifestSelectedFiles]
  simp only [manifestSkip, fileTimeKeep, not_or] at hov ⊢
  constructor
  · rintro ⟨-, hmem, hkeep⟩
    simp at hkeep
    exact ⟨hmem, hkeep⟩
  · rintro ⟨hmem, h1, h2⟩
    refine ⟨?_, hmem, by simp [h1, h2]⟩
    simp [hov.1, hov.2]

theorem c2_witness :
    (⟨"b.parquet", 55, 58⟩ : FileEntry) ∈
      manifestSelectedFiles (some 50) (some 60) ⟨0, 100, [⟨"b.parquet", 55, 58⟩]⟩ :=
  (c2_file_level_filter 50 60 _ _ (by decide)).mpr (by decide)

/-- C3: with non-null start and end, an empty Hive-structure result makes
`findRelevantFiles` fall back to the recursive metadata walk over the
measurement directory, whatever that walk returns; with both bounds null,
the all-files scan is used instead. -/
theorem c3_fallback_trigger (env : Env) (s e : Int) (tc : Option TimeCond) :
    (findFilesByHiveStructure env (env.dateOfNs s) (env.dateOfNs e)
        (some s) (some e) = [] →
      findRelevantFiles env ⟨some s, some e, tc⟩ =
        match env.root with
        | none => []
        | some r => fmfr env.fsExists (some s) (some e) env.basePath r)
    ∧ findRelevantFiles env ⟨none, none, tc⟩ = findAllFiles env := by
  constructor
  · intro h
    unfold findRelevantFiles
    simp only [Option.getD_some]
    rw [h]
    rfl
  · rfl

theorem c3_witness :
    findRelevantFiles envEmpty ⟨some 5, some 9, none⟩ = []
    ∧ findRelevantFiles envEmpty ⟨none, none, none⟩ = findAllFiles envEmpty := by
  have h := c3_fallback_trigger envEmpty 5 9 none
  exact ⟨by rw [h.1 rfl]; rfl, h.2⟩

/-- C4: the extractor returns a fully null range when no time shape matched,
but the defaulting of a missing bound uses JS truthiness, so a start bound
that parses to epoch zero does not receive the documented `end := now`
default: the range comes back as start `0`, end `null`.  The theorem
evaluates the extractor at the failing input (a `time >= epoch` predicate,
with `Date.now()` at `1745000000000` ms). -/
theorem c4_epoch_start_keeps_end_null :
    extractTimeRange (fun _ => 0) 1745000000000
        ⟨none, some (">=", "1970-01-01T00:00:00Z"), none, none⟩
      = ⟨some 0, none, some (.cmp ">=" "1970-01-01T00:00:00Z")⟩
    ∧ extractTimeRange (fun _ => 0) 1745000000000 ⟨none, none, none, none⟩
      = ⟨none, none, none⟩ := ⟨rfl, rfl⟩

/-- C5: a BETWEEN match does take precedence over the other probes, but its
bounds then pass through the truthiness-based defaulting step, so a
BETWEEN whose upper literal parses to epoch zero has its end overwritten
with `Date.now()` instead of being set from `b`.  The theorem evaluates the
extractor at that failing input (lower literal parses to -86400000 ms,
upper to 0 ms, `Date.now()` at `1745000000000` ms). -/
theorem c5_between_end_overwritten :
    extractTimeRange
        (fun s => if s = "1969-12-31T00:00:00Z" then -86400000 else 0)
        1745000000000
        ⟨some ("1969-12-31T00:00:00Z", "1970-01-01T00:00:00Z"),
          some (">", "x"), none, none⟩
      = ⟨some (-86400000000000), some 1745000000000000000,
          some (.between "1969-12-31T00:00:00Z" "1970-01-01T00:00:00Z")⟩ := by
  decide

/-- C6: hour-directory filtering — on a day equal to both boundary dates the
kept hour directories are those parsing to an hour in
`[start.hour, end.hour]`; equal only to the start date, hours
`≥ start.hour`; equal only to the end date, hours `≤ end.hour`; on
interior days every hour directory is kept. -/
theorem c6_hour_directory_filter (pd : String → DateTime) (datePath : String)
    (dnode : FSDir) (sdt edt : DateTime) (n : String) :
    (sameDate sdt (pd (dropHive "date=" (lastComponent datePath))) = true →
      sameDate edt (pd (dropHive "date=" (lastComponent datePath))) = true →
      (n ∈ getHourDirectoriesInRange pd datePath dnode sdt edt ↔
        n ∈ (namesOf dnode.subs).filter (fun dir => strStarts dir "hour=")
          ∧ ∃ v, jsParseInt (dropHive "hour=" n) = some v
              ∧ sdt.hour ≤ v ∧ v ≤ edt.hour))
    ∧ (sameDate sdt (pd (dropHive "date=" (lastComponent datePath))) = true →
      sameDate edt (pd (dropHive "date=" (lastComponent datePath))) = false →
      (n ∈ getHourDirectoriesInRange pd datePath dnode sdt edt ↔
        n ∈ (namesOf dnode.subs).filter (fun dir => strStarts dir "hour=")
          ∧ ∃ v, jsParseInt (dropHive "hour=" n) = some v ∧ sdt.hour ≤ v))
    ∧ (sameDate sdt (pd (dropHive "date=" (lastComponent datePath))) = false →
      sameDate edt (pd (dropHive "date=" (lastComponent datePath))) = true →
      (n ∈ getHourDirectoriesInRange pd datePath dnode sdt edt ↔
        n ∈ (namesOf dnode.subs).filter (fun dir => strStarts dir "hour=")
          ∧ ∃ v, jsParseInt (dropHive "hour=" n) = some v ∧ v ≤ edt.hour))
    ∧ (sameDate sdt (pd (dropHive "date=" (lastComponent datePath))) = false →
      sameDate edt (pd (dropHive "date=" (lastComponent datePath))) = false →
      (n ∈ getHourDirectoriesInRange pd datePath dnode sdt edt ↔
        n ∈ (namesOf dnode.subs).filter (fun dir => strStarts dir "hour="))) := by
  refine ⟨fun h1 h2 => ?_, fun h1 h2 => ?_, fun h1 h2 => ?_, fun h1 h2 => ?_⟩ <;>
    simp [getHourDirectoriesInRange, h1, h2, List.mem_filter,
      hourKeepVal_eq_true, and_assoc] <;>
    tauto

theorem c6_witness :
    "hour=15" ∈ getHourDirectoriesInRange (fun _ => ⟨2025, 3, 10, 0⟩)
      "data/mydb/weather/date=2025-04-10" c6Node
      ⟨2025, 3, 10, 14⟩ ⟨2025, 3, 10, 20⟩ := by
  have h := (c6_hour_directory_filter (fun _ => ⟨2025, 3, 10, 0⟩)
      "data/mydb/weather/date=2025-04-10" c6Node
      ⟨2025, 3, 10, 14⟩ ⟨2025, 3, 10, 20⟩ "hour=15").1 (by decide) (by decide)
  exact h.mpr ⟨by decide, 15, by decide, by decide, by decide⟩

/-- The fallback walker follows a chain of manifest-free directories all the
way down, whatever its depth. -/
theorem fmfr_deepDir (n : Nat) (p : String) :
    fmfr (fun _ => false) (some 0) (some 1) p (deepDir n) = [deepPath p n] := by
  induction n generalizing p with
  | zero => rfl
  | succ k ih => simp [deepDir, deepPath, fmfr, fmfrSubs, ih]

/-- The debug walker of QueryServer.js stops before any directory deeper
than 10 levels. -/
theorem findFilesSrv_depth_capped (k : Nat) :
    ∀ (level : Nat) (p : String), 10 < level + k → 1 ≤ k →
      findFilesSrv p level (deepDir k) = [] := by
  induction k with
  | zero => omega
  | succ j ih =>
    intro level p h10 _
    by_cases hl : level < 10
    · have hj : 1 ≤ j := by omega
      simp [deepDir, findFilesSrv, findFilesSrvSubs, hl,
        ih (level + 1) (pathJoin p "d") (by omega) hj]
    · simp [deepDir, findFilesSrv, findFilesSrvSubs, hl]

/-- C7 counterexample: a parquet file sitting 12 directory levels below the
measurement root is still collected by the fallback resolver, so its walk
visits directories deeper than 10 levels; the 10-level cap exists only in
the debug walker, which returns nothing on the same tree. -/
theorem c7_counterexample :
    fmfr (fun _ => false) (some 0) (some 1) "m" (deepDir 12)
      = ["m/d/d/d/d/d/d/d/d/d/d/d/d/x.parquet"]
    ∧ findFilesSrv "m" 0 (deepDir 12) = [] := by
  refine ⟨?_, rfl⟩
  rw [fmfr_deepDir]
  rfl

/-- C7 amended: the 10-level depth bound lives only in the debug endpoint
walker `findFiles` of QueryServer.js; the Fallback Resolver recursion is
not depth-bounded — it retrieves a file at depth `n` for every `n`,
terminating only because the walked tree is finite. -/
theorem c7_fallback_walk_unbounded (n : Nat) :
    fmfr (fun _ => false) (some 0) (some 1) "m" (deepDir n) = [deepPath "m" n]
    ∧ findFilesSrv "m" 0 (deepDir (n + 11)) = [] :=
  ⟨fmfr_deepDir n "m",
    findFilesSrv_depth_capped (n + 11) 0 "m" (by omega) (by omega)⟩

/-- C8: when the resolved file set is empty, `query` returns an empty `ok`
result, uniformly in the engine and in the rewriting stage — the engine is
never consulted and no error is produced. -/
theorem c8_empty_fileset_short_circuit (env : Env) (pm : ParseMatches)
    (dbName : String) (rewrite : ParsedQuery → List String → String)
    (engine : String → Except String (List Row)) (parsed : ParsedQuery)
    (hp : parseQuery2 pm dbName = some parsed)
    (hf : findRelevantFiles env parsed.timeRange = []) :
    queryRun env pm dbName rewrite engine = .ok [] := by
  unfold queryRun
  rw [hp]
  simp [hf]

theorem c8_witness :
    queryRun envEmpty pmWeather "mydb" (fun _ _ => "")
      (fun _ => .error "engine down") = .ok [] :=
  c8_empty_fileset_short_circuit envEmpty pmWeather "mydb" _ _
    parsedWeather rfl rfl

/-- An entry the fixup leaves alone is mapped to itself. -/
theorem fixEntry_id (k : String) (v : JSValue)
    (h : entryNormalized k v = true) : fixEntry k v = v := by
  cases v with
  | vNull =>
    simp only [entryNormalized, Bool.not_eq_true'] at h
    simp [fixEntry, h]
  | vBigInt n => simp [entryNormalized] at h
  | vObj fields =>
    simp only [entryNormalized, Bool.not_eq_true', Bool.and_eq_false_iff] at h
    unfold fixEntry
    rcases h with h0 | hp
    · simp [h0]
    · simp [hp]
  | vBool b => rfl
  | vNum n => rfl
  | vStr s => rfl
  | vArr elems => rfl

/-- C9: the `/query` per-row fixup is the identity on a row holding no
BigInt value, no null value under a count-named column and no
`ptr`-marked numeric-keyed character buffer. -/
theorem c9_normalization_idempotent (row : Row)
    (h : ∀ kv ∈ row, entryNormalized kv.1 kv.2 = true) :
    processQueryRow row = row := by
  induction row with
  | nil => rfl
  | cons kv rest ih =>
    have h1 := h kv (List.mem_cons_self kv rest)
    have h2 : ∀ kv' ∈ rest, entryNormalized kv'.1 kv'.2 = true :=
      fun kv' hm => h kv' (List.mem_cons_of_mem kv hm)
    show (kv.1, fixEntry kv.1 kv.2) :: processQueryRow rest = kv :: rest
    rw [fixEntry_id kv.1 kv.2 h1, ih h2]

theorem c9_witness : processQueryRow rowNormal = rowNormal :=
  c9_normalization_idempotent rowNormal (by decide)

/-- C10: every descriptor the later-defined `parseQuery` produces carries a
fully null time range, and `findRelevantFiles` on such a range is exactly
the all-files scan — time predicates in the SQL never influence file
resolution in this version. -/
theorem c10_second_parse_ignores_time (pm : ParseMatches) (dbName : String)
    (parsed : ParsedQuery) (hp : parseQuery2 pm dbName = some parsed)
    (env : Env) :
    parsed.timeRange = ⟨none, none, none⟩
    ∧ findRelevantFiles env parsed.timeRange = findAllFiles env := by
  unfold parseQuery2 at hp
  cases hm : pm.fromMatch with
  | none => rw [hm] at hp; exact absurd hp (by simp)
  | some v =>
    obtain ⟨dbOpt, meas⟩ := v
    rw [hm] at hp
    simp only [Option.some.injEq] at hp
    subst hp
    exact ⟨rfl, rfl⟩

theorem c10_witness :
    parsedWeather.timeRange = ⟨none, none, none⟩
    ∧ findRelevantFiles envEmpty parsedWeather.timeRange = findAllFiles envEmpty :=
  c10_second_parse_ignores_time pmWeather "mydb" parsedWeather rfl envEmpty

end Gigapi
